import Mathlib

/-!
Verification of the ping_subnets library (src/ping_subnets/main.py) against
its natural-language specification.

The Python module is embedded shallowly:
- ipaddress.IPv4Network(subnet, strict=True) parsing, as the Python 3.11
  standard library implements it for dotted-quad addresses with an optional
  decimal prefix length, is modelled by parseIPv4Network (an address is a
  Nat below 2^32, a network is the pair of address and prefix length; the
  netmask and hostmask spellings of the prefix, which no caller in this
  repository uses, are not modelled);
- subprocess.run of the ping command is modelled by an oracle
  (attempt index to Outcome) saying, per attempt, whether the call raised
  an exception or completed with a given return code;
- the ThreadPoolExecutor of ping_subnet is modelled by the completion order
  of the futures: an arbitrary permutation of the submitted addresses, over
  which the result dictionary (an association list with Python dict
  insert-or-overwrite semantics) is folded;
- Python exceptions are modelled with Except; ignore-list entries, which a
  caller may pass as non-integers, are a sum type PyVal.
-/

namespace PingSubnets

/-- The configured prefix-length constant of main.py (CIDR = 30). -/
def CIDR : Nat := 30

/-- str.split of Python on one separator character, over the character list
of the string: the separator-free chunks, empty chunks included. -/
def splitOn (sep : Char) : List Char → List (List Char)
  | [] => [[]]
  | c :: rest =>
    match c == sep, splitOn sep rest with
    | true, r => [] :: r
    | false, [] => [[c]]
    | false, h :: t => (c :: h) :: t

/-- str.isascii and str.isdigit of Python, together, on one character. -/
def isAsciiDigit (c : Char) : Bool := 48 ≤ c.toNat && c.toNat ≤ 57

/-- The value of a string of decimal digits. -/
def digitsVal (cs : List Char) : Nat :=
  cs.foldl (fun a c => a * 10 + (c.toNat - 48)) 0

/-- One octet of a dotted-quad address, as Python 3.11 ipaddress parses it:
nonempty, decimal digits only, at most 3 characters, no leading zero, value
at most 255. -/
def parseOctet (cs : List Char) : Option Nat :=
  if cs.isEmpty then none
  else if !(cs.all isAsciiDigit) then none
  else if cs.length > 3 then none
  else if cs.length > 1 && cs.head? == some '0' then none
  else if digitsVal cs ≤ 255 then some (digitsVal cs) else none

/-- A dotted-quad IPv4 address as a Nat: exactly four octets. -/
def parseIPv4Address (cs : List Char) : Option Nat :=
  match (splitOn ('.') cs).mapM parseOctet with
  | some [a, b, c, d] => some (((a * 256 + b) * 256 + c) * 256 + d)
  | _ => none

/-- A prefix length: decimal digits only, value at most 32. -/
def parsePrefixLen (cs : List Char) : Option Nat :=
  if cs.isEmpty then none
  else if !(cs.all isAsciiDigit) then none
  else if digitsVal cs ≤ 32 then some (digitsVal cs) else none

/-- ipaddress.IPv4Network(s, strict=True): at most one slash, a missing
prefix defaults to 32, and the host bits of the address must be zero
(otherwise Python raises ValueError, modelled as none). -/
def parseIPv4Network (s : String) : Option (Nat × Nat) :=
  let core : Option (Nat × Nat) :=
    match splitOn ('/') s.data with
    | [a] => (parseIPv4Address a).map (fun addr => (addr, 32))
    | [a, p] =>
      match parseIPv4Address a, parsePrefixLen p with
      | some addr, some pl => some (addr, pl)
      | _, _ => none
    | _ => none
  match core with
  | some (addr, pl) => if addr % 2 ^ (32 - pl) = 0 then some (addr, pl) else none
  | none => none

/-- check_retries of main.py: outside [1, 3] a warning is logged and the
value defaults to 1. -/
def check_retries (retries : Int) : Int :=
  if !(1 ≤ retries && retries ≤ 3) then 1 else retries

/-- validate_subnet of main.py: IPv4Network(subnet, strict=True) inside a
try that catches ValueError and returns False; a prefix length different
from CIDR also returns False. -/
def validate_subnet (subnet : String) : Bool :=
  match parseIPv4Network subnet with
  | some (_, pl) => pl == CIDR
  | none => false

/-- A Python value an ignore list may hold: an integer or a non-integer
(represented by a string). -/
inductive PyVal where
  | int : Int → PyVal
  | str : String → PyVal
deriving DecidableEq

/-- isinstance(octet, int) of the ignore-list check. -/
def PyVal.isInt : PyVal → Bool
  | PyVal.int _ => true
  | PyVal.str _ => false

def PyVal.toInt : PyVal → Option Int
  | PyVal.int n => some n
  | PyVal.str _ => none

/-- The integer entries of an ignore list. -/
def intEntries (l : List PyVal) : List Int := l.filterMap PyVal.toInt

/-- A Python exception, as main.py can raise or propagate one. -/
inductive PyError where
  | valueError : String → PyError
deriving DecidableEq

/-- network.hosts() of Python ipaddress: all usable hosts of the network,
in ascending order, excluding the network and broadcast addresses; the /31
and /32 special cases return every address. -/
def hostsList (addr pl : Nat) : List Nat :=
  if pl = 32 then [addr]
  else if pl = 31 then [addr, addr + 1]
  else (List.range (2 ^ (32 - pl) - 2)).map (fun i => addr + 1 + i)

/-- str(ip) of an IPv4Address held as a Nat. -/
def ipToString (n : Nat) : String :=
  toString (n / 2 ^ 24 % 256) ++ (".") ++ toString (n / 2 ^ 16 % 256) ++ (".") ++
    toString (n / 2 ^ 8 % 256) ++ (".") ++ toString (n % 256)

/-- The filtering comprehension of validate_ignore_list: keep the hosts
whose last octet (ip.packed[-1]) is not in the ignore list. -/
def filteredHosts (addr pl : Nat) (ignore : List Int) : List Nat :=
  (hostsList addr pl).filter (fun ip => !(ignore.contains (Int.ofNat (ip % 256))))

/-- validate_ignore_list of main.py: first every entry must be an integer
(else ValueError), out-of-range octets are only logged, then the subnet is
parsed again (strict; a ValueError here propagates), its hosts are listed
and the ignore filter is applied. -/
def validate_ignore_list (subnet : String) (ignore_list : List PyVal) :
    Except PyError (List String) :=
  if !(ignore_list.all PyVal.isInt) then
    Except.error (PyError.valueError ("All entries in ignore_list must be integers."))
  else
    match parseIPv4Network subnet with
    | none => Except.error (PyError.valueError ("invalid subnet"))
    | some (addr, pl) =>
      Except.ok ((filteredHosts addr pl (intEntries ignore_list)).map ipToString)

/-- What one subprocess.run of the ping command does: raise an exception,
or complete with a return code. -/
inductive Outcome where
  | exc : Outcome
  | ret : Nat → Outcome
deriving DecidableEq

/-- The retry loop of ping_ip: idx is the index of the next attempt, the
fuel is the number of loop iterations left (retries + 1 at the start). An
attempt that completes returns code == 0 at once; an attempt that raises
logs and continues. Returns the verdict and the number of attempts made. -/
def pingGo (outcomes : Nat → Outcome) : Nat → Nat → Bool × Nat
  | idx, 0 => (false, idx)
  | idx, fuel + 1 =>
    match outcomes idx with
    | Outcome.ret code => (code == 0, idx + 1)
    | Outcome.exc => pingGo outcomes (idx + 1) fuel

/-- ping_ip of main.py: the (address, verdict) pair it returns, paired with
the number of attempts the loop made. -/
def ping_ip (ip_addr : String) (retries : Nat) (outcomes : Nat → Outcome) :
    (String × Bool) × Nat :=
  let r := pingGo outcomes 0 (retries + 1)
  ((ip_addr, r.1), r.2)

/-- The verdict ping_ip yields for one address. -/
def pingVerdict (outcomes : Nat → Outcome) (retries : Nat) : Bool :=
  (pingGo outcomes 0 (retries + 1)).1

/-- results[ip_addr] = success on a Python dict: overwrite the key in place
when present, append otherwise. -/
def dictInsert (m : List (String × Bool)) (k : String) (v : Bool) :
    List (String × Bool) :=
  if m.any (fun p => p.1 == k) then
    m.map (fun p => if p.1 == k then (k, v) else p)
  else m ++ [(k, v)]

/-- ping_subnet of main.py: the futures complete in some order (a
permutation of the submitted addresses); the result dictionary is built by
inserting each completed (address, verdict) pair in that order. -/
def ping_subnet (order : List String) (retries : Nat)
    (outcomes : String → Nat → Outcome) : List (String × Bool) :=
  order.foldl (fun m ip_addr => dictInsert m ip_addr (pingVerdict (outcomes ip_addr) retries)) []

/-- A dict lookup (results[ip]), none when the key is absent. -/
def dictGet (m : List (String × Bool)) (k : String) : Option Bool :=
  (m.find? (fun p => p.1 == k)).map (fun p => p.2)

/-- One iteration of the comparison loop of main: append the pair when
exactly one side is pingable. -/
def asymStep (res1 res2 : String → Bool)
    (acc : List ((String × Bool) × (String × Bool))) (p : String × String) :
    List ((String × Bool) × (String × Bool)) :=
  let ping1 := res1 p.1
  let ping2 := res2 p.2
  if ping1 && !ping2 then acc ++ [((p.1, true), (p.2, false))]
  else if ping2 && !ping1 then acc ++ [((p.1, false), (p.2, true))]
  else acc

/-- The comparison loop of main: for ip1, ip2 in zip(ips1, ips2), look the
verdicts up and collect the asymmetric pairs in order. -/
def asymmetry_reduce (ips1 ips2 : List String) (res1 res2 : String → Bool) :
    List ((String × Bool) × (String × Bool)) :=
  (ips1.zip ips2).foldl (asymStep res1 res2) []

/-- Modelled from the words of the specification, for comparison with
asymmetry_reduce: emit a record exactly for the positional pairs whose
verdicts differ, in position order, carrying both verdicts. -/
def reduce_spec (ips1 ips2 : List String) (res1 res2 : String → Bool) :
    List ((String × Bool) × (String × Bool)) :=
  ((ips1.zip ips2).filter (fun p => res1 p.1 != res2 p.2)).map
    (fun p => ((p.1, res1 p.1), (p.2, res2 p.2)))

/-- How a run of main ends when it does not return: sys.exit(1), or an
uncaught Python exception. -/
inductive MainExit where
  | exit : Nat → MainExit
  | raised : PyError → MainExit
deriving DecidableEq

/-- main of main.py: coerce retries, validate both subnets (sys.exit(1) on
failure), build both address lists (a ValueError from the ignore-list check
propagates), ping both subnets and reduce. The dictionary a scheduler
returns maps every submitted address to its deterministic verdict
(dictGet_ping_subnet below), so the lookups of the comparison loop are the
verdict functions. -/
def main (subnet1 subnet2 : String) (retries : Int) (ignore_list : List PyVal)
    (out1 out2 : String → Nat → Outcome) :
    Except MainExit (List ((String × Bool) × (String × Bool))) :=
  if !(validate_subnet subnet1) || !(validate_subnet subnet2) then
    Except.error (MainExit.exit 1)
  else
    match validate_ignore_list subnet1 ignore_list,
        validate_ignore_list subnet2 ignore_list with
    | Except.ok ips1, Except.ok ips2 =>
      Except.ok (asymmetry_reduce ips1 ips2
        (fun ip => pingVerdict (out1 ip) (check_retries retries).toNat)
        (fun ip => pingVerdict (out2 ip) (check_retries retries).toNat))
    | Except.error e, _ => Except.error (MainExit.raised e)
    | _, Except.error e => Except.error (MainExit.raised e)

/-- validate_subnet accepts exactly the strings that parse as a strict
network with prefix length CIDR. -/
theorem validate_subnet_eq_true (s : String) :
    validate_subnet s = true ↔ ∃ a : Nat, parseIPv4Network s = some (a, CIDR) := by
  rcases hp : parseIPv4Network s with _ | ⟨a, pl⟩
  · simp [validate_subnet, hp]
  · simp only [validate_subnet, hp, beq_iff_eq, Option.some.injEq, Prod.mk.injEq]
    constructor
    · intro h
      exact ⟨a, rfl, h⟩
    · rintro ⟨a1, -, h⟩
      exact h

/-- Membership through the Bool-valued contains of an integer list. -/
theorem int_contains_iff (l : List Int) (a : Int) : l.contains a = true ↔ a ∈ l := by
  simp [List.contains_iff_exists_mem_beq, beq_iff_eq]

/-- The comparison loop with an arbitrary accumulator equals the
filter-and-map description. -/
theorem asym_foldl (res1 res2 : String → Bool) :
    ∀ (l : List (String × String)) (acc : List ((String × Bool) × (String × Bool))),
      l.foldl (asymStep res1 res2) acc =
        acc ++ (l.filter (fun p => res1 p.1 != res2 p.2)).map
          (fun p => ((p.1, res1 p.1), (p.2, res2 p.2)))
  | [], acc => by simp
  | p :: l, acc => by
    simp only [List.foldl_cons, List.filter_cons]
    rw [asym_foldl res1 res2 l]
    cases h1 : res1 p.1 <;> cases h2 : res2 p.2 <;>
      simp [asymStep, h1, h2, List.append_assoc]

/-- zip only sees the first min-length elements of each list. -/
theorem zip_eq_zip_take_min :
    ∀ (A B : List String), A.zip B =
      (A.take (min A.length B.length)).zip (B.take (min A.length B.length))
  | [], _ => by simp
  | _ :: _, [] => by simp
  | a :: A, b :: B => by
    simp only [List.zip_cons_cons, List.length_cons, Nat.succ_min_succ,
      List.take_succ_cons]
    rw [← zip_eq_zip_take_min A B]

/-- Folding dict inserts of pairwise distinct keys that are absent from the
accumulator appends the corresponding pairs in order. -/
theorem foldl_dictInsert (f : String → Bool) :
    ∀ (l : List String) (m : List (String × Bool)), l.Nodup →
      (∀ k ∈ l, ∀ q ∈ m, q.1 ≠ k) →
      l.foldl (fun m ip => dictInsert m ip (f ip)) m =
        m ++ l.map (fun ip => (ip, f ip))
  | [], m, _, _ => by simp
  | a :: l, m, hnd, hdis => by
    simp only [List.foldl_cons]
    have hins : dictInsert m a (f a) = m ++ [(a, f a)] := by
      unfold dictInsert
      rw [if_neg]
      simp only [List.any_eq_true, not_exists, not_and, beq_iff_eq]
      intro q hq
      exact hdis a (List.mem_cons_self a l) q hq
    rw [hins, foldl_dictInsert f l (m ++ [(a, f a)]) (List.Nodup.of_cons hnd) ?_]
    · simp
    · intro k hk q hq
      rcases List.mem_append.mp hq with h | h
      · exact hdis k (List.mem_cons_of_mem a hk) q h
      · have hqa : q = (a, f a) := by simpa using h
        have : a ∉ l := (List.nodup_cons.mp hnd).1
        rw [hqa]
        intro he
        have hak : a = k := he
        exact this (hak ▸ hk)

/-- On a duplicate-free completion order the scheduler result is the list of
(address, verdict) pairs in that order. -/
theorem ping_subnet_eq_map (order : List String) (retries : Nat)
    (outcomes : String → Nat → Outcome) (hnd : order.Nodup) :
    ping_subnet order retries outcomes =
      order.map (fun ip => (ip, pingVerdict (outcomes ip) retries)) := by
  unfold ping_subnet
  rw [foldl_dictInsert (fun ip => pingVerdict (outcomes ip) retries) order [] hnd
    (by simp)]
  simp

/-- A dict produced by mapping keys to values resolves every key of the list
to its value. -/
theorem dictGet_map (f : String → Bool) :
    ∀ (l : List String) (ip : String), ip ∈ l →
      dictGet (l.map (fun k => (k, f k))) ip = some (f ip)
  | [], _, h => by cases h
  | a :: l, ip, h => by
    simp only [List.map_cons, dictGet, List.find?_cons]
    cases hab : a == ip with
    | true =>
      have : a = ip := by simpa using hab
      simp [this]
    | false =>
      have hne : ip ≠ a := fun he => by simp [he] at hab
      have hip : ip ∈ l := by
        rcases List.mem_cons.mp h with h | h
        · exact absurd h hne
        · exact h
      simpa [dictGet, hab] using dictGet_map f l ip hip

/-- The dictionary ping_subnet returns maps every submitted address to the
deterministic verdict of its own probe. -/
theorem dictGet_ping_subnet (order : List String) (retries : Nat)
    (outcomes : String → Nat → Outcome) (ip : String)
    (hnd : order.Nodup) (hip : ip ∈ order) :
    dictGet (ping_subnet order retries outcomes) ip =
      some (pingVerdict (outcomes ip) retries) := by
  rw [ping_subnet_eq_map order retries outcomes hnd]
  exact dictGet_map (fun k => pingVerdict (outcomes k) retries) order ip hip

/-- C6: check_retries returns its argument unchanged on [1, 3], returns 1
outside [1, 3], and never raises; in particular 1, 2, 3 pass through and
0, 4, -1 yield 1. -/
theorem check_retries_spec :
    (∀ r : Int, 1 ≤ r ∧ r ≤ 3 → check_retries r = r) ∧
    (∀ r : Int, ¬(1 ≤ r ∧ r ≤ 3) → check_retries r = 1) ∧
    check_retries 1 = 1 ∧ check_retries 2 = 2 ∧ check_retries 3 = 3 ∧
    check_retries 0 = 1 ∧ check_retries 4 = 1 ∧ check_retries (-1) = 1 := by
  refine ⟨?_, ?_, by decide, by decide, by decide, by decide, by decide, by decide⟩
  · intro r h
    simp only [check_retries, Bool.not_eq_true]
    rw [if_neg]
    simp [h.1, h.2]
  · intro r h
    simp only [check_retries]
    rw [if_pos]
    simp only [Bool.not_eq_true']
    rcases not_and_or.mp h with h1 | h1 <;> simp [h1]

/-- C1: ping_ip at the failing input. With retries = 2 and every attempt
completing with exit code 1, ping_ip returns (address, false) after a
single attempt, not after all three: the loop returns as soon as an attempt
completes, so the retry budget is spent only on attempts that raise. The
second conjunct shows an exception is indeed treated as a failed attempt
after which probing continues; the third shows (address, false) after all
attempts only when every attempt raised. -/
theorem ping_ip_failing_input :
    ping_ip ("10.0.0.1") 2 (fun _ => Outcome.ret 1) = (("10.0.0.1", false), 1) ∧
    ping_ip ("10.0.0.1") 2 (fun i => if i = 0 then Outcome.exc else Outcome.ret 0) =
      (("10.0.0.1", true), 2) ∧
    ping_ip ("10.0.0.1") 2 (fun _ => Outcome.exc) = (("10.0.0.1", false), 3) :=
  ⟨rfl, rfl, rfl⟩

/-- C2 counterexample: a two-element address list with a repeated address
yields a one-entry result map, not a two-entry one, because the Python dict
collapses equal keys. -/
theorem ping_subnet_duplicate_counterexample :
    (ping_subnet ["10.0.0.1", "10.0.0.1"] 1 (fun _ _ => Outcome.ret 0)).length = 1 ∧
    (["10.0.0.1", "10.0.0.1"] : List String).length = 2 := by
  constructor
  · rfl
  · rfl

/-- C2 (amended with distinct addresses): for every duplicate-free address
list and every completion order of the probe futures, the result map has
exactly one entry per input address — as many entries as addresses, each
address exactly once as a key — and each address maps to the verdict of its
own probe, so one failed probe only makes its own value false. -/
theorem ping_subnet_complete (ips order : List String) (retries : Nat)
    (outcomes : String → Nat → Outcome)
    (hperm : order.Perm ips) (hnd : ips.Nodup) :
    (ping_subnet order retries outcomes).length = ips.length ∧
    (∀ a : String,
      ((ping_subnet order retries outcomes).map Prod.fst).count a =
        if a ∈ ips then 1 else 0) ∧
    (∀ a ∈ ips, (a, pingVerdict (outcomes a) retries) ∈
      ping_subnet order retries outcomes) := by
  have hndo : order.Nodup := hperm.nodup_iff.mpr hnd
  have hmap := ping_subnet_eq_map order retries outcomes hndo
  refine ⟨?_, ?_, ?_⟩
  · rw [hmap]
    simp [hperm.length_eq]
  · intro a
    have hkeys : ((ping_subnet order retries outcomes).map Prod.fst) = order := by
      rw [hmap, List.map_map]
      exact List.map_id order
    rw [hkeys]
    by_cases ha : a ∈ ips
    · rw [if_pos ha]
      exact List.count_eq_one_of_mem hndo (hperm.mem_iff.mpr ha)
    · rw [if_neg ha]
      exact List.count_eq_zero.mpr (fun hc => ha (hperm.mem_iff.mp hc))
  · intro a ha
    rw [hmap]
    exact List.mem_map.mpr ⟨a, hperm.mem_iff.mpr ha, rfl⟩

/-- C2 witness: the amended theorem at the concrete list [a, b] with the
reversed completion order [b, a]. -/
theorem ping_subnet_complete_witness :
    (ping_subnet ["b", "a"] 1 (fun _ _ => Outcome.ret 0)).length =
      (["a", "b"] : List String).length ∧
    (∀ a : String,
      ((ping_subnet ["b", "a"] 1 (fun _ _ => Outcome.ret 0)).map Prod.fst).count a =
        if a ∈ (["a", "b"] : List String) then 1 else 0) ∧
    (∀ a ∈ (["a", "b"] : List String),
      (a, pingVerdict ((fun _ _ => Outcome.ret 0) a) 1) ∈
        ping_subnet ["b", "a"] 1 (fun _ _ => Outcome.ret 0)) :=
  ping_subnet_complete ["a", "b"] ["b", "a"] 1 (fun _ _ => Outcome.ret 0)
    (List.Perm.swap ("a") ("b") []) (by decide)

/-- C3: the comparison loop of main emits a record exactly for the
positional pairs whose verdicts differ, in position order (it equals the
filter-and-map description written from the specification), and on the
worked example A=[true,false,true], B=[true,true,false] over a1..a3/b1..b3
it returns exactly the two expected records. -/
theorem asymmetry_reduce_correct :
    (∀ (ips1 ips2 : List String) (res1 res2 : String → Bool),
      asymmetry_reduce ips1 ips2 res1 res2 = reduce_spec ips1 ips2 res1 res2) ∧
    asymmetry_reduce ["a1", "a2", "a3"] ["b1", "b2", "b3"]
        (fun s => s != "a2") (fun s => s != "b3") =
      [(("a2", false), ("b2", true)), (("a3", true), ("b3", false))] := by
  refine ⟨?_, by decide⟩
  intro ips1 ips2 res1 res2
  unfold asymmetry_reduce reduce_spec
  rw [asym_foldl]
  simp

/-- C4: reduction examines exactly the first min(length, length) positional
pairs — the reducer result is unchanged by dropping both tails at the
min length, zip has exactly min length pairs — and on the worked 3-vs-2
example only the first two pairs produce records, with no error. -/
theorem asymmetry_reduce_truncation :
    (∀ (ips1 ips2 : List String) (res1 res2 : String → Bool),
      asymmetry_reduce ips1 ips2 res1 res2 =
        asymmetry_reduce (ips1.take (min ips1.length ips2.length))
          (ips2.take (min ips1.length ips2.length)) res1 res2) ∧
    (∀ ips1 ips2 : List String,
      (ips1.zip ips2).length = min ips1.length ips2.length) ∧
    asymmetry_reduce ["a1", "a2", "a3"] ["b1", "b2"]
        (fun _ => true) (fun _ => false) =
      [(("a1", true), ("b1", false)), (("a2", true), ("b2", false))] := by
  refine ⟨?_, ?_, by decide⟩
  · intro ips1 ips2 res1 res2
    unfold asymmetry_reduce
    rw [← zip_eq_zip_take_min ips1 ips2]
  · intro ips1 ips2
    simp [List.length_zip]

/-- C7: for a subnet that parses strictly with prefix length CIDR, and an
all-integer ignore list matching no host, validate_ignore_list returns
exactly the host list as strings: 2 ^ (32 - CIDR) - 2 addresses, in
strictly ascending numeric order, every one strictly between the network
address and the broadcast address. -/
theorem validate_ignore_list_full_hosts (subnet : String) (addr : Nat)
    (ignore_list : List PyVal)
    (hparse : parseIPv4Network subnet = some (addr, CIDR))
    (hints : ignore_list.all PyVal.isInt = true)
    (hnone : ∀ ip ∈ hostsList addr CIDR,
      Int.ofNat (ip % 256) ∉ intEntries ignore_list) :
    validate_ignore_list subnet ignore_list =
      Except.ok ((hostsList addr CIDR).map ipToString) ∧
    (hostsList addr CIDR).length = 2 ^ (32 - CIDR) - 2 ∧
    (hostsList addr CIDR).Pairwise (· < ·) ∧
    (∀ ip ∈ hostsList addr CIDR,
      addr < ip ∧ ip < addr + 2 ^ (32 - CIDR) - 1) := by
  have h30 : hostsList addr CIDR = (List.range 2).map (fun i => addr + 1 + i) := by
    norm_num [hostsList, CIDR]
  refine ⟨?_, ?_, ?_, ?_⟩
  · have hfil : filteredHosts addr CIDR (intEntries ignore_list) =
        hostsList addr CIDR := by
      apply List.filter_eq_self.mpr
      intro ip hip
      simp only [Bool.not_eq_eq_eq_not, Bool.not_true, Bool.not_eq_true']
      rw [Bool.eq_false_iff]
      intro hc
      exact hnone ip hip ((int_contains_iff _ _).mp hc)
    simp [validate_ignore_list, hints, hparse, hfil]
  · rw [h30]
    norm_num [CIDR]
  · rw [h30]
    exact List.Pairwise.map _ (fun a b h => by omega) (List.pairwise_lt_range 2)
  · intro ip hip
    rw [h30] at hip
    simp only [List.mem_map, List.mem_range] at hip
    obtain ⟨i, hi, rfl⟩ := hip
    norm_num [CIDR]
    omega

/-- C7 witness: the theorem at the subnet 192.168.1.0/30 (address
3232235776) with the empty ignore list: the two usable hosts come back, in
order, between network and broadcast. -/
theorem validate_ignore_list_full_hosts_witness :
    validate_ignore_list ("192.168.1.0/30") [] =
      Except.ok ((hostsList 3232235776 CIDR).map ipToString) ∧
    (hostsList 3232235776 CIDR).length = 2 ^ (32 - CIDR) - 2 ∧
    (hostsList 3232235776 CIDR).Pairwise (· < ·) ∧
    (∀ ip ∈ hostsList 3232235776 CIDR,
      3232235776 < ip ∧ ip < 3232235776 + 2 ^ (32 - CIDR) - 1) :=
  validate_ignore_list_full_hosts ("192.168.1.0/30") 3232235776 []
    (by decide) (by decide) (by decide)

/-- C8: for every all-integer ignore list and every subnet that parses, the
returned addresses are the hosts whose last octet is not a member of the
ignore list — so no returned address has an ignored last octet — and
removing the out-of-range ignore entries (outside [0, 255]) changes
nothing, because a last octet never matches them. -/
theorem validate_ignore_list_last_octet (subnet : String) (addr pl : Nat)
    (ignore_list : List PyVal)
    (hparse : parseIPv4Network subnet = some (addr, pl))
    (hints : ignore_list.all PyVal.isInt = true) :
    validate_ignore_list subnet ignore_list =
      Except.ok ((filteredHosts addr pl (intEntries ignore_list)).map ipToString) ∧
    (∀ ip ∈ filteredHosts addr pl (intEntries ignore_list),
      Int.ofNat (ip % 256) ∉ intEntries ignore_list) ∧
    filteredHosts addr pl (intEntries ignore_list) =
      filteredHosts addr pl ((intEntries ignore_list).filter
        (fun v => decide (0 ≤ v) && decide (v ≤ 255))) := by
  refine ⟨by simp [validate_ignore_list, hints, hparse], ?_, ?_⟩
  · intro ip hip
    have hkeep := (List.mem_filter.mp hip).2
    simp only [Bool.not_eq_eq_eq_not, Bool.not_true, Bool.not_eq_true'] at hkeep
    rw [Bool.eq_false_iff] at hkeep
    intro hmem
    exact hkeep ((int_contains_iff _ _).mpr hmem)
  · unfold filteredHosts
    apply List.filter_congr
    intro ip hip
    have hlo : (0 : Int) ≤ Int.ofNat (ip % 256) := Int.ofNat_nonneg _
    have hhi : Int.ofNat (ip % 256) ≤ 255 := by
      have h1 : ip % 256 ≤ 255 :=
        Nat.le_of_lt_succ (Nat.mod_lt ip (by norm_num))
      exact Int.ofNat_le.mpr h1
    have hiff : (intEntries ignore_list).contains (Int.ofNat (ip % 256)) = true ↔
        ((intEntries ignore_list).filter
          (fun v => decide (0 ≤ v) && decide (v ≤ 255))).contains
          (Int.ofNat (ip % 256)) = true := by
      rw [int_contains_iff, int_contains_iff, List.mem_filter]
      constructor
      · intro h
        refine ⟨h, ?_⟩
        simp only [Bool.and_eq_true, decide_eq_true_eq]
        omega
      · intro h
        exact h.1
    rw [Bool.eq_iff_iff]
    simp only [Bool.not_eq_eq_eq_not, Bool.not_true, Bool.not_eq_true']
    rw [Bool.eq_false_iff, Bool.eq_false_iff]
    exact not_congr hiff

/-- C8 witness: the theorem at 192.168.1.0/30 with the ignore list
[2, 300, -7]: only 192.168.1.1 survives and the out-of-range entries 300
and -7 are inert. -/
theorem validate_ignore_list_last_octet_witness :
    validate_ignore_list ("192.168.1.0/30")
        [PyVal.int 2, PyVal.int 300, PyVal.int (-7)] =
      Except.ok ((filteredHosts 3232235776 30
        (intEntries [PyVal.int 2, PyVal.int 300, PyVal.int (-7)])).map ipToString) ∧
    (∀ ip ∈ filteredHosts 3232235776 30
        (intEntries [PyVal.int 2, PyVal.int 300, PyVal.int (-7)]),
      Int.ofNat (ip % 256) ∉ intEntries [PyVal.int 2, PyVal.int 300, PyVal.int (-7)]) ∧
    filteredHosts 3232235776 30
        (intEntries [PyVal.int 2, PyVal.int 300, PyVal.int (-7)]) =
      filteredHosts 3232235776 30
        ((intEntries [PyVal.int 2, PyVal.int 300, PyVal.int (-7)]).filter
          (fun v => decide (0 ≤ v) && decide (v ≤ 255))) :=
  validate_ignore_list_last_octet ("192.168.1.0/30") 3232235776 30
    [PyVal.int 2, PyVal.int 300, PyVal.int (-7)] (by decide) (by decide)

/-- C9: a single non-integer entry in the ignore list makes
validate_ignore_list raise ValueError, for every subnet — the check runs
before the subnet is parsed and before any address list is built. -/
theorem validate_ignore_list_type_error (subnet : String)
    (ignore_list : List PyVal)
    (h : ∃ v ∈ ignore_list, PyVal.isInt v = false) :
    validate_ignore_list subnet ignore_list =
      Except.error (PyError.valueError
        ("All entries in ignore_list must be integers.")) := by
  have hall : ignore_list.all PyVal.isInt = false :=
    List.all_eq_false.mpr (by simpa using h)
  simp [validate_ignore_list, hall]

/-- C9 witness: the theorem at a valid subnet with the ignore list
[1, non-integer]: ValueError even though the subnet is fine. -/
theorem validate_ignore_list_type_error_witness :
    validate_ignore_list ("192.168.1.0/30") [PyVal.int 1, PyVal.str ("a")] =
      Except.error (PyError.valueError
        ("All entries in ignore_list must be integers.")) :=
  validate_ignore_list_type_error ("192.168.1.0/30")
    [PyVal.int 1, PyVal.str ("a")] ⟨PyVal.str ("a"), by decide, by decide⟩

/-- C10: validate_subnet is a total Boolean function of the input string —
it returns true exactly when the string parses as a strict network of
prefix length CIDR, so a parse failure (malformed string or host bits set)
or a different prefix length yields false rather than an exception; the
concrete conjuncts evaluate a malformed string, an out-of-range octet, a
host-bits-set network, a wrong prefix length and a valid input. -/
theorem validate_subnet_total :
    (∀ s : String, parseIPv4Network s = none → validate_subnet s = false) ∧
    (∀ (s : String) (a pl : Nat), parseIPv4Network s = some (a, pl) →
      pl ≠ CIDR → validate_subnet s = false) ∧
    (∀ s : String, validate_subnet s = true ↔
      ∃ a : Nat, parseIPv4Network s = some (a, CIDR)) ∧
    validate_subnet ("not an ip") = false ∧
    validate_subnet ("300.1.1.1/30") = false ∧
    validate_subnet ("192.168.1.1/30") = false ∧
    validate_subnet ("192.168.1.0/24") = false ∧
    validate_subnet ("192.168.1.0/30") = true := by
  refine ⟨?_, ?_, validate_subnet_eq_true, by decide, by decide, by decide,
    by decide, by decide⟩
  · intro s hp
    simp [validate_subnet, hp]
  · intro s a pl hp hne
    simp [validate_subnet, hp, hne]

/-- C5 counterexample: both subnet arguments are valid, yet with a
non-integer ignore-list entry the run does not complete with a report — it
propagates a ValueError. -/
theorem main_ignore_list_counterexample :
    validate_subnet ("192.168.1.0/30") = true ∧
    validate_subnet ("192.168.2.0/30") = true ∧
    PingSubnets.main ("192.168.1.0/30") ("192.168.2.0/30") 1 [PyVal.str ("x")]
        (fun _ _ => Outcome.ret 0) (fun _ _ => Outcome.ret 0) =
      Except.error (MainExit.raised (PyError.valueError
        ("All entries in ignore_list must be integers."))) :=
  ⟨by decide, by decide, rfl⟩

/-- C5 (amended with an all-integer ignore list): when either subnet fails
validation, main ends with exit status 1 — independently of the probe
oracles, so before any probing; when both subnets are valid and every
ignore-list entry is an integer, main completes and returns a (possibly
empty) report. -/
theorem main_validation (subnet1 subnet2 : String) (retries : Int)
    (ignore_list : List PyVal) (out1 out2 : String → Nat → Outcome) :
    ((validate_subnet subnet1 = false ∨ validate_subnet subnet2 = false) →
      PingSubnets.main subnet1 subnet2 retries ignore_list out1 out2 =
        Except.error (MainExit.exit 1)) ∧
    ((validate_subnet subnet1 = true ∧ validate_subnet subnet2 = true ∧
        ignore_list.all PyVal.isInt = true) →
      ∃ report, PingSubnets.main subnet1 subnet2 retries ignore_list out1 out2 =
        Except.ok report) := by
  constructor
  · intro h
    rcases h with h | h <;> simp [main, h]
  · rintro ⟨h1, h2, hints⟩
    obtain ⟨a1, hp1⟩ := (validate_subnet_eq_true subnet1).mp h1
    obtain ⟨a2, hp2⟩ := (validate_subnet_eq_true subnet2).mp h2
    refine ⟨asymmetry_reduce
        ((filteredHosts a1 CIDR (intEntries ignore_list)).map ipToString)
        ((filteredHosts a2 CIDR (intEntries ignore_list)).map ipToString)
        (fun ip => pingVerdict (out1 ip) (check_retries retries).toNat)
        (fun ip => pingVerdict (out2 ip) (check_retries retries).toNat), ?_⟩
    simp [main, h1, h2, validate_ignore_list, hints, hp1, hp2]

/-- C5 witness: an invalid first subnet exits with status 1; two valid /30
subnets with the integer ignore list [1] complete with a report. -/
theorem main_validation_witness :
    PingSubnets.main ("192.168.1.0/24") ("192.168.2.0/30") 2 []
        (fun _ _ => Outcome.ret 0) (fun _ _ => Outcome.ret 1) =
      Except.error (MainExit.exit 1) ∧
    (∃ report, PingSubnets.main ("192.168.1.0/30") ("192.168.2.0/30") 2 [PyVal.int 1]
        (fun _ _ => Outcome.ret 0) (fun _ _ => Outcome.ret 1) =
      Except.ok report) := by
  constructor
  · exact (main_validation ("192.168.1.0/24") ("192.168.2.0/30") 2 []
      (fun _ _ => Outcome.ret 0) (fun _ _ => Outcome.ret 1)).1 (Or.inl (by decide))
  · exact (main_validation ("192.168.1.0/30") ("192.168.2.0/30") 2 [PyVal.int 1]
      (fun _ _ => Outcome.ret 0) (fun _ _ => Outcome.ret 1)).2
      ⟨by decide, by decide, by decide⟩

end PingSubnets
